import Mathlib

/- Verification of the plugin lifecycle and pipeline execution core of
siyuan-picgo (Universal-PicGo-Core).  The repository ships its core as the
type surface `src/libs/Universal-PicGo-Core/src/types/index.d.ts`; types and
their documented contracts are embedded from that file, and behaviour whose
implementation is not part of the repository's files is modelled from the
specification, each such definition marked `Modelled from the spec`. -/

/-- Image record (`IImgInfo`, src/libs/Universal-PicGo-Core/src/types/index.d.ts
lines 331-341): one image moving through the pipeline; every field is optional
and the raw payload is modelled as a byte list. -/
structure IImgInfo where
  buffer : Option (List Nat) := none
  base64Image : Option String := none
  fileName : Option String := none
  width : Option Nat := none
  height : Option Nat := none
  extname : Option String := none
  imgUrl : Option String := none
deriving Repr, DecidableEq

/-- Modelled from the spec: the per-operation Execution Context (`IPicGo`'s
`input` and `output` buffers, src lines 46-50).  The full context object also
exposes the config store, the registries and the request adapter; those are
threaded as separate arguments below because the executor implementation is
not among the repository's files. -/
structure Ctx where
  input : List String
  output : List IImgInfo
deriving Repr, DecidableEq

/-- Modelled from the spec: the behaviour of an `IPlugin.handle` function
(src lines 301-309) — a stage handler either transforms the shared context or
fails with a message; handler bodies are plugin code outside this repository. -/
inductive HandlerAct where
  | ok (f : Ctx → Ctx)
  | fail (msg : String)

/-- A plugin entry (`IPlugin`, src lines 301-309): an optional `name` field and
a `handle` behaviour. -/
structure IPlugin where
  name : Option String := none
  handle : HandlerAct

/-- A lifecycle registry (`ILifecyclePlugins`, src lines 475-482): an ordered
mapping from registration id to plugin entry, insertion order preserved. -/
abbrev LifecycleRegistry := List (String × IPlugin)

namespace LifecyclePlugins

/-- Modelled from the spec: `register(id, plugin)` inserts or replaces the
entry under `id`; replacement is removal-then-append, moving the id to the end
of iteration order (the registry implementation is not among the repository's
files). -/
def register (r : LifecycleRegistry) (id : String) (p : IPlugin) : LifecycleRegistry :=
  r.filter (fun kv => kv.1 ≠ id) ++ [(id, p)]

/-- Modelled from the spec: `unregister(id)` removes the entry, a no-op when
the id is absent. -/
def unregister (r : LifecycleRegistry) (id : String) : LifecycleRegistry :=
  r.filter (fun kv => kv.1 ≠ id)

/-- Modelled from the spec: `get(id)` returns the entry under `id` or nothing. -/
def get (r : LifecycleRegistry) (id : String) : Option IPlugin :=
  (r.find? (fun kv => kv.1 = id)).map (fun kv => kv.2)

/-- `getList()` returns the registered entries in order (`() => IPlugin[]`,
src line 480). -/
def getList (r : LifecycleRegistry) : List IPlugin := r.map (fun kv => kv.2)

/-- `getIdList()` returns the registration ids in order (`() => string[]`,
src line 481). -/
def getIdList (r : LifecycleRegistry) : List String := r.map (fun kv => kv.1)

end LifecyclePlugins

/-- One call against a lifecycle registry: a `register` or an `unregister`. -/
inductive RegOp where
  | reg (id : String) (p : IPlugin)
  | unreg (id : String)

/-- The id a registry call names. -/
def opId : RegOp → String
  | .reg id _ => id
  | .unreg id => id

/-- Whether a registry call is a `register`. -/
def isRegister : RegOp → Bool
  | .reg _ _ => true
  | .unreg _ => false

/-- Apply one registry call. -/
def applyOp (r : LifecycleRegistry) : RegOp → LifecycleRegistry
  | .reg id p => LifecyclePlugins.register r id p
  | .unreg id => LifecyclePlugins.unregister r id

/-- Apply a sequence of registry calls from left to right. -/
def applyOps : List RegOp → LifecycleRegistry → LifecycleRegistry
  | [], r => r
  | op :: rest, r => applyOps rest (applyOp r op)

/-- Whether some call in the sequence names `n`. -/
def mentionsId (ops : List RegOp) (n : String) : Bool :=
  ops.any (fun op => opId op == n)

/-- A name is currently registered after a call sequence exactly when the last
call naming it is a `register`. -/
def isCurrent : List RegOp → String → Bool
  | [], _ => false
  | op :: rest, n =>
    if mentionsId rest n then isCurrent rest n
    else opId op == n && isRegister op

theorem mem_getIdList_register (r : LifecycleRegistry) (i : String) (p : IPlugin)
    (n : String) :
    n ∈ LifecyclePlugins.getIdList (LifecyclePlugins.register r i p)
      ↔ n = i ∨ n ∈ LifecyclePlugins.getIdList r := by
  simp only [LifecyclePlugins.getIdList, LifecyclePlugins.register, List.map_append,
    List.mem_append, List.map_cons, List.map_nil, List.mem_singleton]
  constructor
  · rintro (h | h)
    · rcases List.mem_map.mp h with ⟨kv, hkv, hfst⟩
      exact Or.inr (List.mem_map.mpr ⟨kv, (List.mem_filter.mp hkv).1, hfst⟩)
    · exact Or.inl h
  · rintro (h | h)
    · exact Or.inr h
    · by_cases hni : n = i
      · exact Or.inr hni
      · rcases List.mem_map.mp h with ⟨kv, hkv, hfst⟩
        refine Or.inl (List.mem_map.mpr ⟨kv, List.mem_filter.mpr ⟨hkv, ?_⟩, hfst⟩)
        simp only [decide_eq_true_eq]
        intro hc
        exact hni (hfst ▸ hc ▸ rfl)

theorem mem_getIdList_unregister (r : LifecycleRegistry) (i : String) (n : String) :
    n ∈ LifecyclePlugins.getIdList (LifecyclePlugins.unregister r i)
      ↔ n ∈ LifecyclePlugins.getIdList r ∧ n ≠ i := by
  simp only [LifecyclePlugins.getIdList, LifecyclePlugins.unregister]
  constructor
  · intro h
    rcases List.mem_map.mp h with ⟨kv, hkv, hfst⟩
    rcases List.mem_filter.mp hkv with ⟨hmem, hpred⟩
    refine ⟨List.mem_map.mpr ⟨kv, hmem, hfst⟩, ?_⟩
    simp only [decide_eq_true_eq] at hpred
    exact hfst ▸ hpred
  · rintro ⟨h, hni⟩
    rcases List.mem_map.mp h with ⟨kv, hkv, hfst⟩
    refine List.mem_map.mpr ⟨kv, List.mem_filter.mpr ⟨hkv, ?_⟩, hfst⟩
    simp only [decide_eq_true_eq]
    intro hc
    exact hni (hfst ▸ hc ▸ rfl)

theorem nodup_getIdList_unregister (r : LifecycleRegistry) (i : String)
    (h : (LifecyclePlugins.getIdList r).Nodup) :
    (LifecyclePlugins.getIdList (LifecyclePlugins.unregister r i)).Nodup := by
  simp only [LifecyclePlugins.getIdList, LifecyclePlugins.unregister] at *
  have hsub : List.Sublist (r.filter (fun kv => kv.1 ≠ i)) r := List.filter_sublist r
  exact (hsub.map (fun kv => kv.1)).nodup h

theorem nodup_getIdList_register (r : LifecycleRegistry) (i : String) (p : IPlugin)
    (h : (LifecyclePlugins.getIdList r).Nodup) :
    (LifecyclePlugins.getIdList (LifecyclePlugins.register r i p)).Nodup := by
  have hu := nodup_getIdList_unregister r i h
  simp only [LifecyclePlugins.getIdList, LifecyclePlugins.unregister] at hu
  simp only [LifecyclePlugins.getIdList, LifecyclePlugins.register, List.map_append,
    List.map_cons, List.map_nil]
  apply List.Nodup.append hu (List.nodup_singleton i)
  intro a ha hb
  rcases List.mem_map.mp ha with ⟨kv, hkv, hfst⟩
  rcases List.mem_filter.mp hkv with ⟨_, hpred⟩
  simp only [decide_eq_true_eq] at hpred
  simp only [List.mem_singleton] at hb
  exact hpred (hfst ▸ hb ▸ rfl)

theorem nodup_getIdList_applyOp (r : LifecycleRegistry) (op : RegOp)
    (h : (LifecyclePlugins.getIdList r).Nodup) :
    (LifecyclePlugins.getIdList (applyOp r op)).Nodup := by
  cases op with
  | unreg i => exact nodup_getIdList_unregister r i h
  | reg i p => exact nodup_getIdList_register r i p h

theorem nodup_getIdList_applyOps (ops : List RegOp) (r : LifecycleRegistry)
    (h : (LifecyclePlugins.getIdList r).Nodup) :
    (LifecyclePlugins.getIdList (applyOps ops r)).Nodup := by
  induction ops generalizing r with
  | nil => exact h
  | cons op rest ih => exact ih (applyOp r op) (nodup_getIdList_applyOp r op h)

theorem mentionsId_cons (op : RegOp) (rest : List RegOp) (n : String) :
    mentionsId (op :: rest) n = (opId op == n || mentionsId rest n) := by
  simp [mentionsId, List.any_cons]

theorem isCurrent_cons_pos (op : RegOp) (rest : List RegOp) (n : String)
    (h : mentionsId rest n = true) :
    isCurrent (op :: rest) n = isCurrent rest n := by
  simp [isCurrent, h]

theorem isCurrent_cons_neg (op : RegOp) (rest : List RegOp) (n : String)
    (h : mentionsId rest n = false) :
    isCurrent (op :: rest) n = (opId op == n && isRegister op) := by
  simp [isCurrent, h]

theorem isCurrent_false_of_not_mentions (ops : List RegOp) (n : String)
    (h : mentionsId ops n = false) : isCurrent ops n = false := by
  induction ops with
  | nil => rfl
  | cons op rest ih =>
    rw [mentionsId_cons, Bool.or_eq_false_iff] at h
    rw [isCurrent_cons_neg op rest n h.2, h.1, Bool.false_and]

theorem mem_getIdList_applyOps (ops : List RegOp) (r : LifecycleRegistry) (n : String) :
    n ∈ LifecyclePlugins.getIdList (applyOps ops r)
      ↔ (isCurrent ops n = true
          ∨ (mentionsId ops n = false ∧ n ∈ LifecyclePlugins.getIdList r)) := by
  induction ops generalizing r with
  | nil =>
    simp [applyOps, isCurrent, mentionsId]
  | cons op rest ih =>
    show n ∈ LifecyclePlugins.getIdList (applyOps rest (applyOp r op)) ↔ _
    rw [ih]
    by_cases hm : mentionsId rest n = true
    · rw [isCurrent_cons_pos op rest n hm, mentionsId_cons, hm, Bool.or_true]
      simp
    · have hm' : mentionsId rest n = false := Bool.eq_false_iff.mpr (by exact hm)
      have hcur : isCurrent rest n = false := isCurrent_false_of_not_mentions rest n hm'
      rw [isCurrent_cons_neg op rest n hm', mentionsId_cons, hm', Bool.or_false, hcur]
      simp only [Bool.false_eq_true, false_or, eq_self_iff_true, true_and]
      cases op with
      | reg i p =>
        simp only [applyOp, opId, isRegister, Bool.and_true, beq_iff_eq,
          beq_eq_false_iff_ne, ne_eq]
        rw [mem_getIdList_register]
        by_cases h : i = n
        · simp [h]
        · have hni : ¬ n = i := fun hc => h hc.symm
          simp [h, hni]
      | unreg i =>
        simp only [applyOp, opId, isRegister, Bool.and_false, Bool.false_eq_true,
          false_or, beq_eq_false_iff_ne, ne_eq]
        rw [mem_getIdList_unregister]
        by_cases h : i = n
        · simp [h]
        · have hni : ¬ n = i := fun hc => h hc.symm
          simp [h, hni, and_comm]

/-- C6: for every finite sequence of register and unregister calls applied to
an initially empty Lifecycle Registry, the reported id list contains exactly
the currently registered names — those whose last mention in the sequence is a
register — and holds no duplicate names. -/
theorem registry_idList_exact_and_nodup (ops : List RegOp) (n : String) :
    (n ∈ LifecyclePlugins.getIdList (applyOps ops [])
        ↔ isCurrent ops n = true)
    ∧ (LifecyclePlugins.getIdList (applyOps ops [])).Nodup := by
  constructor
  · rw [mem_getIdList_applyOps]
    simp [LifecyclePlugins.getIdList]
  · exact nodup_getIdList_applyOps ops [] (by simp [LifecyclePlugins.getIdList])

theorem getIdList_filter_key (r : LifecycleRegistry) (i : String) :
    (r.filter (fun kv => kv.1 ≠ i)).map (fun kv => kv.1)
      = (r.map (fun kv => kv.1)).filter (fun n => n ≠ i) := by
  induction r with
  | nil => rfl
  | cons kv rest ih =>
    simp only [ne_eq, decide_not] at ih ⊢
    by_cases h : kv.1 = i
    · simp [List.filter_cons, h, ih]
    · simp [List.filter_cons, h, ih]

theorem get_register_self (r : LifecycleRegistry) (i : String) (p : IPlugin) :
    LifecyclePlugins.get (LifecyclePlugins.register r i p) i = some p := by
  induction r with
  | nil => simp [LifecyclePlugins.get, LifecyclePlugins.register, List.find?]
  | cons kv rest ih =>
    simp only [LifecyclePlugins.get, LifecyclePlugins.register] at *
    by_cases h : kv.1 = i
    · simp [List.filter_cons, h]
    · simp [List.filter_cons, h, List.find?]

/-- C7: registering an id that is already registered replaces the stored entry
(a subsequent get returns the new entry) and moves the id to the end of the
iteration order, while the relative order of the other registered ids — the id
list filtered free of the replaced id — is unchanged. -/
theorem register_existing_moves_to_end (r : LifecycleRegistry) (i : String) (p : IPlugin)
    (h : (LifecyclePlugins.get r i).isSome = true) :
    LifecyclePlugins.getIdList (LifecyclePlugins.register r i p)
      = (LifecyclePlugins.getIdList r).filter (fun n => n ≠ i) ++ [i]
    ∧ LifecyclePlugins.get (LifecyclePlugins.register r i p) i = some p := by
  constructor
  · simp only [LifecyclePlugins.getIdList, LifecyclePlugins.register, List.map_append,
      List.map_cons, List.map_nil]
    rw [getIdList_filter_key]
  · exact get_register_self r i p

/-- A plugin entry with no declared name whose handler leaves the context
unchanged; used as a concrete inhabitant in witnesses. -/
def passPlugin : IPlugin := { handle := HandlerAct.ok (fun c => c) }

/-- A second concrete plugin entry, distinguishable from `passPlugin` by its
declared name. -/
def namedPluginB : IPlugin := { name := some "b", handle := HandlerAct.ok (fun c => c) }

/-- Witness for C7 at a concrete registry: "a" is registered, re-registering it
with a new entry keeps the id at the end and a get returns the new entry. -/
theorem register_existing_moves_to_end_witness :
    LifecyclePlugins.getIdList
        (LifecyclePlugins.register [("a", passPlugin)] "a" namedPluginB)
      = (LifecyclePlugins.getIdList [("a", passPlugin)]).filter (fun n => n ≠ "a") ++ ["a"]
    ∧ LifecyclePlugins.get
        (LifecyclePlugins.register [("a", passPlugin)] "a" namedPluginB) "a"
      = some namedPluginB :=
  register_existing_moves_to_end [("a", passPlugin)] "a" namedPluginB (by rfl)

/-- C5 counterexample: `getIdList` and `getList` are not aliases.  On the
registry holding under id "a" an entry whose declared name is "b", `getIdList`
reports the registration id `"a"` while `getList` reports the entry, whose
name field reads `"b"`; read as name lists the two disagree.  The type surface
already separates them: `getList` returns `IPlugin[]`, `getIdList` `string[]`. -/
theorem getIdList_not_alias_of_getList :
    LifecyclePlugins.getIdList [("a", namedPluginB)] = ["a"]
    ∧ (LifecyclePlugins.getList [("a", namedPluginB)]).map IPlugin.name = [some "b"]
    ∧ (LifecyclePlugins.getList [("a", namedPluginB)]).map
        (fun p => p.name.getD "") ≠ LifecyclePlugins.getIdList [("a", namedPluginB)] :=
  ⟨rfl, rfl, by decide⟩

/-- C5 (amended): `getIdList` and `getList` are the two projections of one
ordered registry — `getIdList` returns the registration ids and `getList` the
entries, in the same order, so zipping the id list with the entry list
recovers the registry exactly. -/
theorem getIdList_zip_getList (r : LifecycleRegistry) :
    (LifecyclePlugins.getIdList r).zip (LifecyclePlugins.getList r) = r := by
  induction r with
  | nil => rfl
  | cons kv rest ih =>
    simp only [LifecyclePlugins.getIdList, LifecyclePlugins.getList, List.map_cons,
      List.zip_cons_cons]
    simp only [LifecyclePlugins.getIdList, LifecyclePlugins.getList] at ih
    rw [ih]

/-- `StageHandlerError` (spec §7): wraps a stage entry failure, tagged with the
stage name and the failing entry's registration id. -/
structure StageHandlerError where
  stage : String
  handlerName : String
  msg : String
deriving Repr, DecidableEq

/-- Modelled from the spec: the executor-visible part of the §7 error
taxonomy (request and persistence errors arise outside the executor). -/
inductive PicGoError where
  | pluginNotFound (name : String)
  | transformerNotFound (name : String)
  | uploaderNotFound (name : String)
  | stageError (e : StageHandlerError)
deriving Repr, DecidableEq

/-- An invocation-trace entry: the stage that ran an entry, and the entry's
registration id. -/
abbrev Invocation := String × String

/-- Modelled from the spec: run one stage's registry in registration order,
each entry receiving the context produced so far; an entry failure aborts the
remaining entries of the stage and reports a `StageHandlerError` naming the
stage and the entry.  The first component records the invocations made. -/
def runStage (stage : String) :
    LifecycleRegistry → Ctx → List Invocation × Except StageHandlerError Ctx
  | [], c => ([], Except.ok c)
  | (i, p) :: rest, c =>
    match p.handle with
    | HandlerAct.fail m => ([(stage, i)], Except.error ⟨stage, i, m⟩)
    | HandlerAct.ok f =>
      let r := runStage stage rest (f c)
      ((stage, i) :: r.1, r.2)

/-- The `picBed` slice of the configuration tree that the executor reads
(`IConfig.picBed`, src lines 263-279): `uploader` required, `current` and
`transformer` optional. -/
structure PicBedConfig where
  uploader : String
  current : Option String := none
  transformer : Option String := none
deriving Repr, DecidableEq

/-- Modelled from the spec: entering `Transforming` resolves the single active
transformer by the configured name — `picBed.transformer`, default "path" —
failing with `TransformerNotFoundError` when unresolved, and invokes it once. -/
def runTransform (cfg : PicBedConfig) (transformers : LifecycleRegistry) (c : Ctx) :
    List Invocation × Except PicGoError Ctx :=
  let tname := cfg.transformer.getD "path"
  match LifecyclePlugins.get transformers tname with
  | none => ([], Except.error (PicGoError.transformerNotFound tname))
  | some p =>
    match p.handle with
    | HandlerAct.fail m =>
      ([("transformer", tname)],
        Except.error (PicGoError.stageError ⟨"transformer", tname, m⟩))
    | HandlerAct.ok f => ([("transformer", tname)], Except.ok (f c))

/-- Modelled from the spec: entering `Uploading` resolves the single active
uploader by the configured name — `picBed.uploader` or `picBed.current` —
failing with `UploaderNotFoundError` when unresolved, and invokes it once. -/
def runUpload (cfg : PicBedConfig) (uploaders : LifecycleRegistry) (c : Ctx) :
    List Invocation × Except PicGoError Ctx :=
  let uname := if cfg.uploader = "" then cfg.current.getD "" else cfg.uploader
  match LifecyclePlugins.get uploaders uname with
  | none => ([], Except.error (PicGoError.uploaderNotFound uname))
  | some p =>
    match p.handle with
    | HandlerAct.fail m =>
      ([("uploader", uname)],
        Except.error (PicGoError.stageError ⟨"uploader", uname, m⟩))
    | HandlerAct.ok f => ([("uploader", uname)], Except.ok (f c))

/-- `IHelper` (src lines 484-490): the five lifecycle registries of the plugin
system core. -/
structure IHelper where
  transformer : LifecycleRegistry
  uploader : LifecycleRegistry
  beforeTransformPlugins : LifecycleRegistry
  beforeUploadPlugins : LifecycleRegistry
  afterUploadPlugins : LifecycleRegistry

/-- Modelled from the spec: the Pipeline Executor's linear stage sequence
beforeTransform → transform → beforeUpload → upload → afterUpload, exiting on
the first error; the first component collects every invocation made. -/
def runPipeline (h : IHelper) (cfg : PicBedConfig) (c : Ctx) :
    List Invocation × Except PicGoError Ctx :=
  match runStage "beforeTransform" h.beforeTransformPlugins c with
  | (t1, Except.error e) => (t1, Except.error (PicGoError.stageError e))
  | (t1, Except.ok c1) =>
    match runTransform cfg h.transformer c1 with
    | (t2, Except.error e) => (t1 ++ t2, Except.error e)
    | (t2, Except.ok c2) =>
      match runStage "beforeUpload" h.beforeUploadPlugins c2 with
      | (t3, Except.error e) => (t1 ++ t2 ++ t3, Except.error (PicGoError.stageError e))
      | (t3, Except.ok c3) =>
        match runUpload cfg h.uploader c3 with
        | (t4, Except.error e) => (t1 ++ t2 ++ t3 ++ t4, Except.error e)
        | (t4, Except.ok c4) =>
          match runStage "afterUpload" h.afterUploadPlugins c4 with
          | (t5, Except.error e) =>
            (t1 ++ t2 ++ t3 ++ t4 ++ t5, Except.error (PicGoError.stageError e))
          | (t5, Except.ok c5) => (t1 ++ t2 ++ t3 ++ t4 ++ t5, Except.ok c5)

/-- The executor's terminal state for one run (spec §4.5): `Done`, or `Failed`
carrying the triggering error. -/
inductive PipeState where
  | done
  | failed (e : PicGoError)
deriving Repr, DecidableEq

/-- Modelled from the spec: the state the executor ends one run in. -/
def finalState (h : IHelper) (cfg : PicBedConfig) (c : Ctx) : PipeState :=
  match (runPipeline h cfg c).2 with
  | Except.ok _ => PipeState.done
  | Except.error e => PipeState.failed e

/-- The result union of `IPicGo.upload` (src line 106,
`Promise<IImgInfo[] | Error>`): the populated output array of image records,
or an error value. -/
inductive UploadResult where
  | ok (output : List IImgInfo)
  | err (e : PicGoError)
deriving Repr, DecidableEq

/-- Inspecting a returned upload value to tell its two shapes apart. -/
def UploadResult.isOk : UploadResult → Bool
  | UploadResult.ok _ => true
  | UploadResult.err _ => false

/-- Modelled from the spec: the top-level `upload` call (src line 106) — run
the pipeline on a fresh context holding the caller's input and resolve to the
populated output array or to the error value. -/
def upload (h : IHelper) (cfg : PicBedConfig) (input : List String) : UploadResult :=
  match (runPipeline h cfg ⟨input, []⟩).2 with
  | Except.ok c => UploadResult.ok c.output
  | Except.error e => UploadResult.err e

/-- C1: every invocation of the top-level upload operation resolves to either
the output array of image records or an error value — nothing else — and a
caller can distinguish the two cases by inspecting the returned value. -/
theorem upload_returns_output_or_error (h : IHelper) (cfg : PicBedConfig)
    (input : List String) :
    (∃ out, upload h cfg input = UploadResult.ok out
        ∧ (upload h cfg input).isOk = true)
    ∨ (∃ e, upload h cfg input = UploadResult.err e
        ∧ (upload h cfg input).isOk = false) := by
  cases hu : upload h cfg input with
  | ok out => exact Or.inl ⟨out, rfl, rfl⟩
  | err e => exact Or.inr ⟨e, rfl, rfl⟩

theorem runStage_stage_tag (stage : String) (r : LifecycleRegistry) (c : Ctx) :
    ∀ e ∈ (runStage stage r c).1, e.1 = stage := by
  induction r generalizing c with
  | nil =>
    intro e he
    simp [runStage] at he
  | cons kv rest ih =>
    intro e he
    rcases kv with ⟨i, p⟩
    cases hp : p.handle with
    | fail m =>
      simp only [runStage, hp, List.mem_singleton] at he
      rw [he]
    | ok f =>
      simp only [runStage, hp, List.mem_cons] at he
      rcases he with he | he
      · rw [he]
      · exact ih (f c) e he

theorem runTransform_stage_tag (cfg : PicBedConfig) (ts : LifecycleRegistry) (c : Ctx) :
    ∀ e ∈ (runTransform cfg ts c).1, e.1 = "transformer" := by
  intro e he
  simp only [runTransform] at he
  split at he
  · simp at he
  · split at he
    · simp only [List.mem_singleton] at he
      rw [he]
    · simp only [List.mem_singleton] at he
      rw [he]

theorem runStage_split (stage : String) (pre : LifecycleRegistry) (n m : String)
    (pf : IPlugin) (post : LifecycleRegistry) (c : Ctx)
    (hfail : pf.handle = HandlerAct.fail m)
    (hpre : ∀ q ∈ pre, ∃ f, q.2.handle = HandlerAct.ok f) :
    runStage stage (pre ++ (n, pf) :: post) c
      = (pre.map (fun q => (stage, q.1)) ++ [(stage, n)],
          Except.error ⟨stage, n, m⟩) := by
  revert hpre
  induction pre generalizing c with
  | nil =>
    intro _
    simp [runStage, hfail]
  | cons q rest ih =>
    intro hpre
    rcases hpre q (List.mem_cons_self q rest) with ⟨f, hf⟩
    have hrest : ∀ x ∈ rest, ∃ g, x.2.handle = HandlerAct.ok g :=
      fun x hx => hpre x (List.mem_cons_of_mem q hx)
    rcases q with ⟨qi, qp⟩
    simp only at hf
    rw [List.cons_append]
    simp only [runStage, hf]
    rw [ih (f c) hrest]
    simp

/-- C2: when some registered beforeUpload handler fails — the stage's registry
splitting into a prefix of succeeding entries, the failing entry and a
remainder — and the stages before it succeed, the executor ends in `Failed`
carrying a `StageHandlerError` that names the beforeUpload stage and the
failing handler; the invocation trace stops at the failing handler, so the
remaining entries of that stage are never invoked, and no afterUpload handler
runs in that execution. -/
theorem beforeUpload_failure_fails_and_skips_afterUpload
    (h : IHelper) (cfg : PicBedConfig) (c : Ctx)
    (pre post : LifecycleRegistry) (n m : String) (pf : IPlugin)
    (t1 t2 : List Invocation) (c1 c2 : Ctx)
    (hsplit : h.beforeUploadPlugins = pre ++ (n, pf) :: post)
    (hfail : pf.handle = HandlerAct.fail m)
    (hpre : ∀ q ∈ pre, ∃ f, q.2.handle = HandlerAct.ok f)
    (hbt : runStage "beforeTransform" h.beforeTransformPlugins c = (t1, Except.ok c1))
    (ht : runTransform cfg h.transformer c1 = (t2, Except.ok c2)) :
    finalState h cfg c
        = PipeState.failed (PicGoError.stageError ⟨"beforeUpload", n, m⟩)
    ∧ (runPipeline h cfg c).1
        = t1 ++ t2 ++ (pre.map (fun q => ("beforeUpload", q.1)) ++ [("beforeUpload", n)])
    ∧ ∀ e ∈ (runPipeline h cfg c).1, e.1 ≠ "afterUpload" := by
  have hbu := runStage_split "beforeUpload" pre n m pf post c2 hfail hpre
  have hrun : runPipeline h cfg c
      = (t1 ++ t2
            ++ (pre.map (fun q => ("beforeUpload", q.1)) ++ [("beforeUpload", n)]),
          Except.error (PicGoError.stageError ⟨"beforeUpload", n, m⟩)) := by
    simp only [runPipeline, hbt, ht, hsplit, hbu, List.append_assoc]
  refine ⟨?_, ?_, ?_⟩
  · simp only [finalState, hrun]
  · rw [hrun]
  · intro e he
    rw [hrun] at he
    simp only [List.mem_append, List.mem_singleton, List.mem_map] at he
    have h1 : ∀ x ∈ t1, x.1 = "beforeTransform" := by
      have := runStage_stage_tag "beforeTransform" h.beforeTransformPlugins c
      rw [hbt] at this
      exact this
    have h2 : ∀ x ∈ t2, x.1 = "transformer" := by
      have := runTransform_stage_tag cfg h.transformer c1
      rw [ht] at this
      exact this
    rcases he with (he | he) | (⟨q, _, he⟩ | he)
    · rw [h1 e he]
      decide
    · rw [h2 e he]
      decide
    · rw [← he]
      exact (by decide : ("beforeUpload" : String) ≠ "afterUpload")
    · rw [he]
      exact (by decide : ("beforeUpload" : String) ≠ "afterUpload")

/-- A plugin entry whose handler always fails; a concrete inhabitant for
witnesses. -/
def failingPlugin : IPlugin := { handle := HandlerAct.fail "always fails" }

/-- A concrete helper: one passing entry per stage, with the beforeUpload
stage holding a passing entry, a failing entry and one more never reached. -/
def helperWithFailingBeforeUpload : IHelper :=
  { transformer := [("path", passPlugin)]
    uploader := [("mock", passPlugin)]
    beforeTransformPlugins := [("logBefore", passPlugin)]
    beforeUploadPlugins :=
      [("okFirst", passPlugin), ("boom", failingPlugin), ("never", passPlugin)]
    afterUploadPlugins := [("afterLog", passPlugin)] }

/-- A configuration selecting uploader "mock" and the default transformer. -/
def mockConfig : PicBedConfig := { uploader := "mock" }

/-- The initial context of the witness run. -/
def witnessCtx : Ctx := { input := ["./a.png"], output := [] }

/-- Witness for C2 at the concrete helper: the run fails with a
`StageHandlerError` naming "boom", the trace stops at "boom", and no
afterUpload invocation appears. -/
theorem beforeUpload_failure_witness :
    finalState helperWithFailingBeforeUpload mockConfig witnessCtx
        = PipeState.failed (PicGoError.stageError ⟨"beforeUpload", "boom", "always fails"⟩)
    ∧ (runPipeline helperWithFailingBeforeUpload mockConfig witnessCtx).1
        = [("beforeTransform", "logBefore")] ++ [("transformer", "path")]
            ++ ([("okFirst", passPlugin)].map (fun q => ("beforeUpload", q.1))
                ++ [("beforeUpload", "boom")])
    ∧ ∀ e ∈ (runPipeline helperWithFailingBeforeUpload mockConfig witnessCtx).1,
        e.1 ≠ "afterUpload" :=
  beforeUpload_failure_fails_and_skips_afterUpload
    helperWithFailingBeforeUpload mockConfig witnessCtx
    [("okFirst", passPlugin)] [("never", passPlugin)] "boom" "always fails" failingPlugin
    [("beforeTransform", "logBefore")] [("transformer", "path")] witnessCtx witnessCtx
    rfl rfl
    (by
      intro q hq
      simp only [List.mem_singleton] at hq
      subst hq
      exact ⟨fun c => c, rfl⟩)
    rfl rfl

/-- The flags of a request configuration that the `IResponse<T, U>` conditional
type inspects (src lines 570-580): `resolveWithFullResponse: true`
(`IRequestOptionsWithFullResponse`), `json: true` (`IRequestOptionsWithJSON`)
and `responseType: "arraybuffer"`
(`IRequestOptionsWithResponseTypeArrayBuffer`). -/
structure ReqFlags where
  resolveWithFullResponse : Bool
  json : Bool
  arraybuffer : Bool
deriving Repr, DecidableEq

/-- The four result shapes a Request Adapter call can resolve to (spec §4.4,
`IResponse` src lines 586-590): the full response with status code and
headers, the parsed or declared body type `T`, the raw binary `Buffer`, or
text. -/
inductive RespShape where
  | fullResponse
  | parsedBody
  | binaryBuffer
  | textBody
deriving Repr, DecidableEq

/-- The `IResponse<T, U>` conditional type (src lines 586-590), branch by
branch: full-response first, then json, then arraybuffer, then the
body-only arm yielding `T`.  The trailing `string` arm is unreachable: the
`IPicGoRequest` signature (src line 540) constrains every config `U` to
`AxiosRequestConfig`, which is exactly `IReqOptionsWithBodyResOnly`
(src line 559), so the fourth test always succeeds. -/
def resolveShape (u : ReqFlags) : RespShape :=
  if u.resolveWithFullResponse then RespShape.fullResponse
  else if u.json then RespShape.parsedBody
  else if u.arraybuffer then RespShape.binaryBuffer
  else RespShape.parsedBody

/-- C3 counterexample: a configuration with the arraybuffer flag set, the
full-response flag clear and the json flag set resolves to the parsed body —
the json branch of `IResponse` precedes the arraybuffer branch — not to the
raw binary body the claim requires for every arraybuffer-flagged
configuration without full-response. -/
theorem arraybuffer_with_json_not_binary :
    resolveShape ⟨false, true, true⟩ = RespShape.parsedBody
    ∧ resolveShape ⟨false, true, true⟩ ≠ RespShape.binaryBuffer := by
  decide

/-- C3 (amended): the result shape is determined statically from the flags in
the branch order of `IResponse`: full-response wins over everything —
including the arraybuffer flag, the claimed tie-break — then json yields the
parsed body, then arraybuffer yields the raw binary body, and otherwise the
body-only shape results. -/
theorem resolveShape_branch_order (u : ReqFlags) :
    (u.resolveWithFullResponse = true → resolveShape u = RespShape.fullResponse)
    ∧ (u.resolveWithFullResponse = false → u.json = true →
        resolveShape u = RespShape.parsedBody)
    ∧ (u.resolveWithFullResponse = false → u.json = false → u.arraybuffer = true →
        resolveShape u = RespShape.binaryBuffer)
    ∧ (u.resolveWithFullResponse = false → u.json = false → u.arraybuffer = false →
        resolveShape u = RespShape.parsedBody) := by
  rcases u with ⟨fr, j, ab⟩
  cases fr <;> cases j <;> cases ab <;> simp [resolveShape]

/-- The constraint the published arraybuffer options type
`IReqOptionsWithArrayBufferRes` (src lines 552-554) places on its flags: it
extends `IReqOptions` (src lines 545-547), which requires
`resolveWithFullResponse: true`, and adds `responseType: "arraybuffer"`. -/
def isArrayBufferResOptions (u : ReqFlags) : Prop :=
  u.resolveWithFullResponse = true ∧ u.arraybuffer = true

/-- C9: every request issued through `IReqOptionsWithArrayBufferRes`
necessarily carries the full-response flag, so the response-shape rules
produce the full-response shape — status code, headers and body — and never
the bare binary buffer the doc comment "the response will be Buffer"
suggests. -/
theorem arrayBufferResOptions_full_response (u : ReqFlags)
    (h : isArrayBufferResOptions u) :
    resolveShape u = RespShape.fullResponse
    ∧ resolveShape u ≠ RespShape.binaryBuffer := by
  rcases h with ⟨hfull, _⟩
  constructor
  · simp [resolveShape, hfull]
  · simp [resolveShape, hfull]

/-- Witness for C9 at the concrete flags of an
`IReqOptionsWithArrayBufferRes` value: full-response and arraybuffer set,
json clear. -/
theorem arrayBufferResOptions_full_response_witness :
    resolveShape ⟨true, false, true⟩ = RespShape.fullResponse
    ∧ resolveShape ⟨true, false, true⟩ ≠ RespShape.binaryBuffer :=
  arrayBufferResOptions_full_response ⟨true, false, true⟩ ⟨rfl, rfl⟩

/-- A node of the nested key/value configuration tree (spec §3 "Config Store
State"; the tree's JSON-like value space). -/
inductive ConfigVal where
  | str (s : String)
  | num (n : Int)
  | bool (b : Bool)
  | arr (xs : List ConfigVal)
  | obj (fields : List (String × ConfigVal))

mutual

/-- Modelled from the spec: the deep merge `setConfig` performs — objects
merge field by field, everything else (arrays included, wholesale) is
replaced by the incoming value (the config-store implementation is not among
the repository's files). -/
def deepMerge : ConfigVal → ConfigVal → ConfigVal
  | ConfigVal.obj bs, ConfigVal.obj ns => ConfigVal.obj (mergeFields bs ns)
  | _, n => n
termination_by b n => (sizeOf n, 0)

/-- Merge each incoming field, left to right, into the base field list. -/
def mergeFields : List (String × ConfigVal) → List (String × ConfigVal) →
    List (String × ConfigVal)
  | bs, [] => bs
  | bs, (k, v) :: rest => mergeFields (mergeField bs k v) rest
termination_by bs ns => (sizeOf ns, 0)

/-- Merge one incoming field: deep-merge into an existing field of the same
key, preserving its position, or append it. -/
def mergeField : List (String × ConfigVal) → String → ConfigVal →
    List (String × ConfigVal)
  | [], k, v => [(k, v)]
  | (k1, v1) :: bs, k, v =>
    if k1 = k then (k1, deepMerge v1 v) :: bs
    else (k1, v1) :: mergeField bs k v
termination_by bs k v => (sizeOf v, 1 + sizeOf bs)

end

/-- Delete one property from an object node; other nodes are unchanged. -/
def removeProp (v : ConfigVal) (propName : String) : ConfigVal :=
  match v with
  | ConfigVal.obj fs => ConfigVal.obj (fs.filter (fun kv => kv.1 ≠ propName))
  | t => t

/-- Modelled from the spec: `unsetConfig(key, propName)`'s deletion — remove
the property `propName` from the object stored at the top-level `key`. -/
def unsetIn (tree : ConfigVal) (key propName : String) : ConfigVal :=
  match tree with
  | ConfigVal.obj fs =>
    ConfigVal.obj (fs.map (fun kv =>
      if kv.1 = key then (kv.1, removeProp kv.2 propName) else kv))
  | t => t

/-- Modelled from the spec: the Config Store's two layers — the in-memory
configuration tree and the durable (persisted) tree behind the
read()/write(tree) persistence boundary (the store implementation is not
among the repository's files). -/
structure ConfigStore where
  memory : ConfigVal
  durable : ConfigVal

/-- Modelled from the spec: `setConfig(partialTree)` deep-merges into the
in-memory tree and does not persist (src lines 95-98). -/
def setConfig (s : ConfigStore) (cfg : ConfigVal) : ConfigStore :=
  { s with memory := deepMerge s.memory cfg }

/-- Modelled from the spec: `unsetConfig(key, propName)` deletes in memory
only (src lines 99-102). -/
def unsetConfig (s : ConfigStore) (key propName : String) : ConfigStore :=
  { s with memory := unsetIn s.memory key propName }

/-- Modelled from the spec: `saveConfig(config)` performs the `setConfig`
mutation and then persists the entire tree (src lines 87-90). -/
def saveConfig (s : ConfigStore) (cfg : ConfigVal) : ConfigStore :=
  { memory := deepMerge s.memory cfg, durable := deepMerge s.memory cfg }

/-- Modelled from the spec: `removeConfig(key, propName)` performs the
`unsetConfig` deletion and then persists the entire tree (src lines 91-94). -/
def removeConfig (s : ConfigStore) (key propName : String) : ConfigStore :=
  { memory := unsetIn s.memory key propName, durable := unsetIn s.memory key propName }

/-- C4: `setConfig` and `unsetConfig` mutate only the in-memory tree and leave
the durable store unchanged, while `saveConfig` and `removeConfig` perform the
same in-memory mutation and additionally persist it — for every store state
and arguments, the durable tree is touched by the persisting pair and by no
other mutation operation. -/
theorem config_mutations_persistence_frame (s : ConfigStore) (cfg : ConfigVal)
    (key propName : String) :
    (setConfig s cfg).durable = s.durable
    ∧ (unsetConfig s key propName).durable = s.durable
    ∧ (saveConfig s cfg).memory = (setConfig s cfg).memory
    ∧ (saveConfig s cfg).durable = (saveConfig s cfg).memory
    ∧ (removeConfig s key propName).memory = (unsetConfig s key propName).memory
    ∧ (removeConfig s key propName).durable = (removeConfig s key propName).memory :=
  ⟨rfl, rfl, rfl, rfl, rfl, rfl⟩

/-- `IPicGoPluginInterface` (src lines 377-407): the object a plugin factory
returns — a register hook receiving the context, plus optional uploader and
transformer capability names. -/
structure IPicGoPluginInterface where
  registerHook : Ctx → Ctx := fun c => c
  uploader : Option String := none
  transformer : Option String := none

/-- Modelled from the spec: the Plugin Loader state — the load table of known
plugin names with their enabled flags, the package names already loaded and
resolvable without a supplied factory, and the persisted configuration file
(the loader implementation is not among the repository's files). -/
structure PluginLoaderState where
  plugins : List (String × Bool)
  loadedPackages : List String
  durableConfig : ConfigVal

namespace PluginLoader

/-- `getFullList()` (src lines 362-365): all known plugin names, enabled or
not. -/
def getFullList (s : PluginLoaderState) : List String :=
  s.plugins.map (fun kv => kv.1)

/-- `getList()` (src lines 358-361): the enabled plugin names only. -/
def getList (s : PluginLoaderState) : List String :=
  (s.plugins.filter (fun kv => kv.2)).map (fun kv => kv.1)

/-- `hasPlugin(name)` (src line 366): existence in the load table. -/
def hasPlugin (s : PluginLoaderState) (n : String) : Bool :=
  s.plugins.any (fun kv => kv.1 == n)

/-- Record a plugin as known and enabled: flip its flag in place when the name
is already in the load table, append it otherwise. -/
def enableEntry (ps : List (String × Bool)) (n : String) : List (String × Bool) :=
  if ps.any (fun kv => kv.1 == n) then
    ps.map (fun kv => if kv.1 == n then (kv.1, true) else kv)
  else ps ++ [(n, true)]

/-- Modelled from the spec: `registerPlugin(name, plugin?)` (src lines
343-355).  With a factory supplied the plugin is registered and enabled by
default, and no configuration is written to the config file; without one the
name must be resolvable from an already-loaded package, else the call fails
with `PluginNotFoundError`.  Capability registration into the five lifecycle
registries happens through the returned interface's register hook and is not
tracked in this load-table state. -/
def registerPlugin (s : PluginLoaderState) (n : String)
    (plugin : Option IPicGoPluginInterface) : Except PicGoError PluginLoaderState :=
  match plugin with
  | some _ => Except.ok { s with plugins := enableEntry s.plugins n }
  | none =>
    if s.loadedPackages.any (fun q => q == n) then
      Except.ok { s with plugins := enableEntry s.plugins n }
    else Except.error (PicGoError.pluginNotFound n)

end PluginLoader

/-- C8: the enabled plugin names are a subset of all known plugin names — for
every loader state, every name `getList()` reports also appears in
`getFullList()`. -/
theorem enabled_list_subset_full_list (s : PluginLoaderState) (n : String)
    (h : n ∈ PluginLoader.getList s) : n ∈ PluginLoader.getFullList s := by
  simp only [PluginLoader.getList, PluginLoader.getFullList] at *
  rcases List.mem_map.mp h with ⟨kv, hkv, hfst⟩
  exact List.mem_map.mpr ⟨kv, (List.mem_filter.mp hkv).1, hfst⟩

/-- A concrete loader state with one enabled plugin, for the C8 witness. -/
def loaderWithOnePlugin : PluginLoaderState :=
  { plugins := [("picgo-plugin-s3", true)]
    loadedPackages := []
    durableConfig := ConfigVal.obj [] }

/-- Witness for C8: the one enabled plugin name of the concrete state appears
in its full list. -/
theorem enabled_list_subset_full_list_witness :
    "picgo-plugin-s3" ∈ PluginLoader.getFullList loaderWithOnePlugin :=
  enabled_list_subset_full_list loaderWithOnePlugin "picgo-plugin-s3" (by decide)

theorem mem_getList_enableEntry (ps : List (String × Bool)) (n : String) :
    n ∈ (List.map (fun kv => kv.1)
      (List.filter (fun kv => kv.2) (PluginLoader.enableEntry ps n))) := by
  unfold PluginLoader.enableEntry
  by_cases hany : ps.any (fun kv => kv.1 == n) = true
  · rw [if_pos hany]
    rcases List.any_eq_true.mp hany with ⟨kv, hkv, hbeq⟩
    have hkvn : kv.1 = n := by
      simpa using hbeq
    refine List.mem_map.mpr ⟨(kv.1, true), List.mem_filter.mpr ⟨?_, rfl⟩, hkvn⟩
    refine List.mem_map.mpr ⟨kv, hkv, ?_⟩
    rw [if_pos (by simpa using hkvn)]
  · rw [if_neg hany]
    refine List.mem_map.mpr ⟨(n, true), List.mem_filter.mpr ⟨?_, rfl⟩, rfl⟩
    exact List.mem_append.mpr (Or.inr (List.mem_singleton.mpr rfl))

/-- C10: `registerPlugin` with a supplied plugin factory succeeds, the plugin
is registered and enabled by default — its name appears in the loader's
enabled list afterwards — and no configuration is written to the persisted
config file: the durable configuration is unchanged. -/
theorem registerPlugin_enables_without_persisting (s : PluginLoaderState)
    (n : String) (plugin : IPicGoPluginInterface) :
    ∃ s2, PluginLoader.registerPlugin s n (some plugin) = Except.ok s2
      ∧ n ∈ PluginLoader.getList s2
      ∧ s2.durableConfig = s.durableConfig := by
  refine ⟨{ s with plugins := PluginLoader.enableEntry s.plugins n }, rfl, ?_, rfl⟩
  simp only [PluginLoader.getList]
  exact mem_getList_enableEntry s.plugins n
